import Mathlib

/-!
Verification of the McCabe–Thiele staircase construction (`McCabeThiele.py`).

The source computes over IEEE floats via NumPy; we embed it shallowly over the
exact reals `ℝ`.  Where NumPy produces NaN (square root of a negative number,
division by zero) the embedding uses Mathlib's total conventions
(`Real.sqrt x = 0` for `x < 0`, `x / 0 = 0`); every place where this matters is
noted explicitly at the theorem concerned.

Layout:
* equilibrium maps `eq_og`, `eq`, `eq2` (source lines 5–65);
* the two stepping functions `stepping_ESOL`, `stepping_SSOL` (lines 67–117);
  the source reads the module-global `nm` inside both, which the embedding
  makes explicit as the extra argument `gnm`;
* the staircase loops (lines 193–222) as a fuel-bounded while-loop `whileGT`;
* the derived geometry of `McCabeThiele` (lines 140–179) and the full pipeline.
-/

namespace McCabe

noncomputable section

/-- Source lines 5–20, `eq_og`: ideal equilibrium curve,
`ya = α·xa / (1 + (α−1)·xa)`. -/
def eq_og (xa relative_volatility : ℝ) : ℝ :=
  relative_volatility * xa / (1 + (relative_volatility - 1) * xa)

/-- Source lines 22–41, `eq`: equilibrium curve corrected for the Murphree
efficiency `nm`, `ya = (ya_og − xa)·nm + xa`. -/
def eq (xa relative_volatility nm : ℝ) : ℝ :=
  (relative_volatility * xa / (1 + (relative_volatility - 1) * xa) - xa) * nm + xa

/-- Quadratic coefficient `a` computed inside `eq2` (source line 60). -/
def eq2_a (relative_volatility nm : ℝ) : ℝ :=
  relative_volatility * nm - nm - relative_volatility + 1

/-- Quadratic coefficient `b` computed inside `eq2` (source line 61). -/
def eq2_b (ya relative_volatility nm : ℝ) : ℝ :=
  ya * relative_volatility - ya + nm - 1 - relative_volatility * nm

/-- Quadratic coefficient `c` computed inside `eq2` (source line 62). -/
def eq2_c (ya : ℝ) : ℝ := ya

/-- Source lines 43–65, `eq2`: quadratic-formula inverse of `eq`, selecting the
root `(-b - sqrt(b² - 4ac)) / (2a)`. -/
def eq2 (ya relative_volatility nm : ℝ) : ℝ :=
  (-eq2_b ya relative_volatility nm -
      Real.sqrt (eq2_b ya relative_volatility nm ^ 2 -
        4 * eq2_a relative_volatility nm * eq2_c ya)) /
    (2 * eq2_a relative_volatility nm)

/-- Source lines 67–89, `stepping_ESOL`.  The argument `gnm` is the
module-global `nm` that line 87 reads from the outer scope. -/
def stepping_ESOL (x1 y1 relative_volatility R xd gnm : ℝ) : ℝ × ℝ × ℝ × ℝ :=
  let x2 := eq2 y1 relative_volatility gnm
  let y2 := R * x2 / (R + 1) + xd / (R + 1)
  (x1, x2, y1, y2)

/-- Source lines 91–117, `stepping_SSOL`.  The argument `gnm` is the
module-global `nm` that line 113 reads from the outer scope. -/
def stepping_SSOL (x1 y1 relative_volatility ESOL_q_x ESOL_q_y xb gnm : ℝ) : ℝ × ℝ × ℝ × ℝ :=
  let x2 := eq2 y1 relative_volatility gnm
  let m := (xb - ESOL_q_y) / (xb - ESOL_q_x)
  let c := ESOL_q_y - m * ESOL_q_x
  let y2 := m * x2 + c
  (x1, x2, y1, y2)

/-- The running tuple `x1, x2, y1, y2` threaded through the construction. -/
structure StepState where
  x1 : ℝ
  x2 : ℝ
  y1 : ℝ
  y2 : ℝ

/-- Pack the 4-tuple returned by a stepping function into a `StepState`. -/
def ofTuple : ℝ × ℝ × ℝ × ℝ → StepState
  | (a, b, c, d) => ⟨a, b, c, d⟩

/-- Body of the rectifying loop (source line 199):
`x1,x2,y1,y2 = stepping_ESOL(x2,y2,…)`. -/
def rectStep (relative_volatility R xd gnm : ℝ) (s : StepState) : StepState :=
  ofTuple (stepping_ESOL s.x2 s.y2 relative_volatility R xd gnm)

/-- Body of the stripping loop (source line 213):
`x1,x2,y1,y2 = stepping_SSOL(x2,y2,…)`. -/
def stripStep (relative_volatility ESOL_q_x ESOL_q_y xb gnm : ℝ) (s : StepState) : StepState :=
  ofTuple (stepping_SSOL s.x2 s.y2 relative_volatility ESOL_q_x ESOL_q_y xb gnm)

/-- Fuel-bounded embedding of `while x2 > t: s = f s; n += 1`.
Returns the final state together with the step counter; `none` when the fuel
runs out before the guard fails. -/
def whileGT (f : StepState → StepState) (t : ℝ) : ℕ → StepState → ℕ → Option (StepState × ℕ)
  | 0, s, n => if t < s.x2 then none else some (s, n)
  | fuel + 1, s, n => if t < s.x2 then whileGT f t fuel (f s) (n + 1) else some (s, n)

/-- The quantities reported by the staircase construction:
`stages` (line 222), `feed_stage` (line 205) and `xb_actual` (line 221). -/
structure StaircaseResult where
  stages : ℕ
  feed_stage : ℕ
  xb_actual : ℝ

/-- The staircase construction, source lines 193–222: an unconditional first
ESOL step from `(xd, xd)` with `step_count = 1`, the rectifying loop guarded by
`x2 > ESOL_q_x`, `feed_stage = step_count`, one unconditional SSOL step taken
from `(x1, y1)` (not `(x2, y2)`), the stripping loop guarded by `x2 > xb`, and
finally `xb_actual = x2`, `stages = step_count - 1`. -/
def staircase (relative_volatility R xd ESOL_q_x ESOL_q_y xb gnm : ℝ) (fuel : ℕ) :
    Option StaircaseResult :=
  match whileGT (rectStep relative_volatility R xd gnm) ESOL_q_x fuel
      (ofTuple (stepping_ESOL xd xd relative_volatility R xd gnm)) 1 with
  | none => none
  | some (s, n) =>
    match whileGT (stripStep relative_volatility ESOL_q_x ESOL_q_y xb gnm) xb fuel
        (ofTuple (stepping_SSOL s.x1 s.y1 relative_volatility ESOL_q_x ESOL_q_y xb gnm))
        (n + 1) with
    | none => none
    | some (t, m) => some ⟨m - 1, n, t.x2⟩

/-- The `q` nudge away from the singular values (source lines 141–144). -/
def q_adj (q : ℝ) : ℝ :=
  if q = 1 then q - 0.00000001 else if q = 0 then q + 0.00000001 else q

/-- Source line 146: `relative_volatility = PaVap/PbVap`. -/
def relative_volatility (PaVap PbVap : ℝ) : ℝ := PaVap / PbVap

/-- Coefficient `a` of the q-line/equilibrium-curve quadratic (source line 158). -/
def qeq_a (al q nm : ℝ) : ℝ :=
  al * q / (q - 1) - al + al * nm - q / (q - 1) + 1 - nm

/-- Coefficient `b` of the q-line/equilibrium-curve quadratic (source line 159). -/
def qeq_b (al q nm xf : ℝ) : ℝ :=
  q / (q - 1) - 1 + nm + al * xf / (1 - q) - xf / (1 - q) - al * nm

/-- Coefficient `c` of the q-line/equilibrium-curve quadratic (source line 160). -/
def qeq_c (q xf : ℝ) : ℝ := xf / (1 - q)

/-- Source lines 162–165, `q_eqX`: root of the q-line/equilibrium quadratic,
branch selected on the sign of `q - 1`. -/
def q_eqX (al q nm xf : ℝ) : ℝ :=
  if 1 < q then
    (-qeq_b al q nm xf +
        Real.sqrt (qeq_b al q nm xf ^ 2 - 4 * qeq_a al q nm * qeq_c q xf)) /
      (2 * qeq_a al q nm)
  else
    (-qeq_b al q nm xf -
        Real.sqrt (qeq_b al q nm xf ^ 2 - 4 * qeq_a al q nm * qeq_c q xf)) /
      (2 * qeq_a al q nm)

/-- Source line 167, `q_eqy`. -/
def q_eqy (al q nm xf : ℝ) : ℝ := eq (q_eqX al q nm xf) al nm

/-- Source line 170, `theta_min`: ESOL y-intercept used to obtain `R_min`. -/
def theta_min (xd q_eqX q_eqy : ℝ) : ℝ := xd * (1 - (xd - q_eqy) / (xd - q_eqX))

/-- Source line 171, `R_min`. -/
def R_min (xd th : ℝ) : ℝ := xd / th - 1

/-- Source line 172: `R = R_factor * R_min`. -/
def R_actual (R_factor Rm : ℝ) : ℝ := R_factor * Rm

/-- Source line 173, `theta`: actual ESOL y-intercept. -/
def theta (xd R : ℝ) : ℝ := xd / (R + 1)

/-- Source line 175, `ESOL_q_x`: where the actual ESOL meets the q-line. -/
def ESOL_q_x (xd th xf q : ℝ) : ℝ :=
  (th - xf / (1 - q)) / (q / (q - 1) - (xd - th) / xd)

/-- Source line 177, `ESOL_q_y`. -/
def ESOL_q_y (xd th xf q : ℝ) : ℝ :=
  ESOL_q_x xd th xf q * ((xd - th) / xd) + th

/-- Modelled from the spec's words for comparison with the source's
`theta_min` formula: the y-intercept of the straight line through `(x0, y0)`
and `(x1, y1)`. -/
def lineIntercept (x0 y0 x1 y1 : ℝ) : ℝ := y0 - (y0 - y1) / (x0 - x1) * x0

/-- The numbers `McCabeThiele` reports on the plot (lines 233–237). -/
structure MCResult where
  stages : ℕ
  feed_stage : ℕ
  R_min : ℝ
  R : ℝ
  xb_actual : ℝ

/-- The full `McCabeThiele` computation (source lines 119–247), plotting
removed.  `gnm` is the module-global `nm` read by the stepping functions; the
parameter `nm` is the function argument of the same name (the two coincide in
the script's own invocation at line 262 but are distinct bindings). -/
def McCabeThiele (PaVap PbVap R_factor xf xd xb q nm gnm : ℝ) (fuel : ℕ) : Option MCResult :=
  let q' := q_adj q
  let al := relative_volatility PaVap PbVap
  let th_min := theta_min xd (q_eqX al q' nm xf) (q_eqy al q' nm xf)
  let Rm := R_min xd th_min
  let Rv := R_actual R_factor Rm
  let th := theta xd Rv
  match staircase al Rv xd (ESOL_q_x xd th xf q') (ESOL_q_y xd th xf q') xb gnm fuel with
  | none => none
  | some r => some ⟨r.stages, r.feed_stage, Rm, Rv, r.xb_actual⟩

/-!  ### Round-trip algebra for `eq` / `eq2`  -/

/-- Core algebra of the inverse: for `0 ≤ x`, `α > 1` and Murphree efficiency
`0 < η < 1`, the root `(-b - √(b²-4ac))/(2a)` selected by `eq2` recovers `x`
from `eq x α η`. -/
lemma eq2_inverts_eq (x al eta : ℝ) (hx0 : 0 ≤ x) (hal : 1 < al)
    (he0 : 0 < eta) (he1 : eta < 1) :
    eq2 (eq x al eta) al eta = x := by
  have hd : 0 < 1 + (al - 1) * x := by nlinarith
  have hy : eq x al eta * (1 + (al - 1) * x) =
      x * (1 + (al - 1) * x) + eta * ((al - 1) * (x * (1 - x))) := by
    unfold eq
    field_simp
    ring
  have ha_eq : eq2_a al eta = (al - 1) * (eta - 1) := by unfold eq2_a; ring
  have ha_neg : eq2_a al eta < 0 := by
    rw [ha_eq]
    exact mul_neg_of_pos_of_neg (by linarith) (by linarith)
  have hroot : eq2_a al eta * x ^ 2 + eq2_b (eq x al eta) al eta * x +
      eq2_c (eq x al eta) = 0 := by
    unfold eq2_a eq2_b eq2_c
    linear_combination hy
  have hD : eq2_b (eq x al eta) al eta ^ 2 - 4 * eq2_a al eta * eq2_c (eq x al eta) =
      (2 * eq2_a al eta * x + eq2_b (eq x al eta) al eta) ^ 2 := by
    linear_combination (-(4 : ℝ) * eq2_a al eta) * hroot
  have hkey : (1 + (al - 1) * x) *
      (2 * eq2_a al eta * x + eq2_b (eq x al eta) al eta) =
      -((al - 1) ^ 2 * (1 - eta) * x ^ 2 + 2 * (al - 1) * (1 - eta) * x +
        eta * (al - 1) + 1) := by
    unfold eq2_a eq2_b
    linear_combination (al - 1) * hy
  have hNpos : 0 < (al - 1) ^ 2 * (1 - eta) * x ^ 2 + 2 * (al - 1) * (1 - eta) * x +
      eta * (al - 1) + 1 := by
    have h1 : 0 ≤ (al - 1) ^ 2 * (1 - eta) * x ^ 2 := by
      apply mul_nonneg (mul_nonneg (sq_nonneg _) (by linarith)) (sq_nonneg _)
    have h2 : 0 ≤ 2 * (al - 1) * (1 - eta) * x := by
      apply mul_nonneg (mul_nonneg (mul_nonneg (by norm_num) (by linarith)) (by linarith)) hx0
    nlinarith
  have hbneg : 2 * eq2_a al eta * x + eq2_b (eq x al eta) al eta < 0 := by
    by_contra hcon
    push_neg at hcon
    nlinarith [mul_nonneg hd.le hcon]
  have hsqrt : Real.sqrt (eq2_b (eq x al eta) al eta ^ 2 -
      4 * eq2_a al eta * eq2_c (eq x al eta)) =
      -(2 * eq2_a al eta * x + eq2_b (eq x al eta) al eta) := by
    rw [hD, Real.sqrt_sq_eq_abs]
    exact abs_of_neg hbneg
  have h2a : 2 * eq2_a al eta ≠ 0 := by
    intro h
    have : eq2_a al eta = 0 := by linarith
    exact absurd this (ne_of_lt ha_neg)
  unfold eq2
  rw [hsqrt, div_eq_iff h2a]
  ring

/-- Claim C1 (amended to `η ∈ (0,1)`): for every `x ∈ (0,1)`, `α > 1` and
Murphree efficiency `η ∈ (0,1)`, applying the efficiency-corrected equilibrium
map `eq` and then its quadratic-formula inverse `eq2` returns the original
liquid composition, over exact real arithmetic. -/
theorem roundtrip_eq2_eq (x al eta : ℝ) (hx0 : 0 < x) (hx1 : x < 1)
    (hal : 1 < al) (he0 : 0 < eta) (he1 : eta < 1) :
    eq2 (eq x al eta) al eta = x :=
  eq2_inverts_eq x al eta hx0.le hal he0 he1

/-- Witness for `roundtrip_eq2_eq` at `x = 1/2`, `α = 2`, `η = 1/2`. -/
theorem roundtrip_eq2_eq_witness :
    (0:ℝ) < 1/2 ∧ (1/2:ℝ) < 1 ∧ (1:ℝ) < 2 ∧ (0:ℝ) < 1/2 ∧ (1/2:ℝ) < 1 ∧
      eq2 (eq (1/2) 2 (1/2)) 2 (1/2) = 1/2 :=
  ⟨by norm_num, by norm_num, by norm_num, by norm_num, by norm_num,
    roundtrip_eq2_eq (1/2) 2 (1/2) (by norm_num) (by norm_num) (by norm_num)
      (by norm_num) (by norm_num)⟩

/-- Counterexample to claim C1 as stated: at `η = 1` (allowed by the claim's
range `η ∈ (0,1]`) the quadratic coefficient `a` of `eq2` vanishes, the root
formula divides by zero, and the round trip fails at `x = 1/2`, `α = 2`.
(NumPy evaluates the division `0/0` to NaN; the real-number embedding gives
`0`; in both semantics the result differs from `1/2`.) -/
theorem roundtrip_eq2_eq_counterexample :
    (0:ℝ) < 1/2 ∧ (1/2:ℝ) < 1 ∧ (1:ℝ) < 2 ∧ (0:ℝ) < 1 ∧ (1:ℝ) ≤ 1 ∧
      eq2 (eq (1/2) 2 1) 2 1 ≠ 1/2 := by
  refine ⟨by norm_num, by norm_num, by norm_num, by norm_num, le_refl 1, ?_⟩
  have h1 : eq2_a 2 1 = 0 := by unfold eq2_a; norm_num
  have h2 : eq2 (eq (1/2) 2 1) 2 1 = 0 := by
    unfold eq2
    rw [h1]
    norm_num
  rw [h2]
  norm_num

/-- Claim C2 (amended to `η ∈ (0,1)`): for every vapor composition
`ya ∈ [0,1]`, `α > 1` and `η ∈ (0,1)`, the coefficient `a = α·η - η - α + 1`
computed in `eq2` is nonzero and the discriminant `b² - 4ac` is non-negative
(at `η = 1` the discriminant is still non-negative but `a = 0`). -/
theorem eq2_quadratic_wellDefined (ya al eta : ℝ) (hy0 : 0 ≤ ya) (hy1 : ya ≤ 1)
    (hal : 1 < al) (he0 : 0 < eta) (he1 : eta < 1) :
    eq2_a al eta ≠ 0 ∧ 0 ≤ eq2_b ya al eta ^ 2 - 4 * eq2_a al eta * eq2_c ya := by
  constructor
  · have h : eq2_a al eta = (al - 1) * (eta - 1) := by unfold eq2_a; ring
    rw [h]
    exact ne_of_lt (mul_neg_of_pos_of_neg (by linarith) (by linarith))
  · have h : eq2_b ya al eta ^ 2 - 4 * eq2_a al eta * eq2_c ya =
        eq2_b ya al eta ^ 2 + 4 * (al - 1) * (1 - eta) * ya := by
      unfold eq2_a eq2_c
      ring
    rw [h]
    have h2 : 0 ≤ 4 * (al - 1) * (1 - eta) * ya := by
      apply mul_nonneg (mul_nonneg (mul_nonneg (by norm_num) (by linarith)) (by linarith)) hy0
    nlinarith [sq_nonneg (eq2_b ya al eta)]

/-- Witness for `eq2_quadratic_wellDefined` at `ya = 1/2`, `α = 2`, `η = 1/2`. -/
theorem eq2_quadratic_wellDefined_witness :
    (0:ℝ) ≤ 1/2 ∧ (1/2:ℝ) ≤ 1 ∧ (1:ℝ) < 2 ∧ (0:ℝ) < 1/2 ∧ (1/2:ℝ) < 1 ∧
      (eq2_a 2 (1/2) ≠ 0 ∧ 0 ≤ eq2_b (1/2) 2 (1/2) ^ 2 - 4 * eq2_a 2 (1/2) * eq2_c (1/2)) :=
  ⟨by norm_num, by norm_num, by norm_num, by norm_num, by norm_num,
    eq2_quadratic_wellDefined (1/2) 2 (1/2) (by norm_num) (by norm_num) (by norm_num)
      (by norm_num) (by norm_num)⟩

/-- Counterexample to claim C2 as stated: at `η = 1` (allowed by the claim's
range `η ∈ (0,1]`) and any `α > 1`, the coefficient `a` computed in `eq2` is
exactly zero, so the division by `2a` is not defined. -/
theorem eq2_quadratic_wellDefined_counterexample :
    (1:ℝ) < 2 ∧ (0:ℝ) < 1 ∧ (1:ℝ) ≤ 1 ∧ eq2_a 2 1 = 0 := by
  refine ⟨by norm_num, by norm_num, le_refl 1, ?_⟩
  unfold eq2_a
  norm_num

/-!  ### Trace characterisation of the fuel-bounded while loops  -/

/-- If the guard already fails, `whileGT` exits at once with any fuel. -/
lemma whileGT_exit (f : StepState → StepState) (t : ℝ) (fuel : ℕ) (s : StepState) (n : ℕ)
    (h : ¬ t < s.x2) : whileGT f t fuel s n = some (s, n) := by
  cases fuel with
  | zero => simp only [whileGT, if_neg h]
  | succ fuel => simp only [whileGT, if_neg h]

/-- If the guard holds, `whileGT` performs one step and recurses. -/
lemma whileGT_step (f : StepState → StepState) (t : ℝ) (fuel : ℕ) (s : StepState) (n : ℕ)
    (h : t < s.x2) : whileGT f t (fuel + 1) s n = whileGT f t fuel (f s) (n + 1) := by
  simp only [whileGT, if_pos h]

/-- A successful run of `whileGT` is exactly an iteration of the loop body
repeated while the guard holds: the result is the `k`-th iterate for the first
`k` at which the guard fails, and the counter advanced by `k`. -/
lemma whileGT_some (f : StepState → StepState) (t : ℝ) :
    ∀ (fuel : ℕ) (s : StepState) (n : ℕ) (s' : StepState) (n' : ℕ),
      whileGT f t fuel s n = some (s', n') →
      ∃ k, n' = n + k ∧ s' = f^[k] s ∧
        (∀ j < k, t < (f^[j] s).x2) ∧ ¬ t < (f^[k] s).x2 := by
  intro fuel
  induction fuel with
  | zero =>
    intro s n s' n' h
    simp only [whileGT] at h
    by_cases hc : t < s.x2
    · rw [if_pos hc] at h
      exact absurd h (by simp)
    · rw [if_neg hc] at h
      simp only [Option.some.injEq, Prod.mk.injEq] at h
      obtain ⟨hs, hn⟩ := h
      subst hs
      subst hn
      exact ⟨0, (Nat.add_zero n).symm, (Function.iterate_zero_apply f s).symm,
        fun j hj => absurd hj (Nat.not_lt_zero j), by simpa using hc⟩
  | succ fuel ih =>
    intro s n s' n' h
    simp only [whileGT] at h
    by_cases hc : t < s.x2
    · rw [if_pos hc] at h
      obtain ⟨k, hk1, hk2, hk3, hk4⟩ := ih (f s) (n + 1) s' n' h
      refine ⟨k + 1, by omega, ?_, ?_, ?_⟩
      · rw [hk2, Function.iterate_succ_apply]
      · intro j hj
        cases j with
        | zero => simpa using hc
        | succ j =>
          have hj' := hk3 j (by omega)
          simpa [Function.iterate_succ_apply] using hj'
      · rw [Function.iterate_succ_apply]
        exact hk4
    · rw [if_neg hc] at h
      simp only [Option.some.injEq, Prod.mk.injEq] at h
      obtain ⟨hs, hn⟩ := h
      subst hs
      subst hn
      exact ⟨0, (Nat.add_zero n).symm, (Function.iterate_zero_apply f s).symm,
        fun j hj => absurd hj (Nat.not_lt_zero j), by simpa using hc⟩

/-- A successful `staircase` run decomposes into a successful rectifying loop
followed by a successful stripping loop started, as in the source, from the
`(x1, y1)` of the rectifying loop's final state. -/
lemma staircase_decomp (al R xd qx qy xb gnm : ℝ) (fuel : ℕ) (r : StaircaseResult)
    (h : staircase al R xd qx qy xb gnm fuel = some r) :
    ∃ s n t m,
      whileGT (rectStep al R xd gnm) qx fuel
        (ofTuple (stepping_ESOL xd xd al R xd gnm)) 1 = some (s, n) ∧
      whileGT (stripStep al qx qy xb gnm) xb fuel
        (ofTuple (stepping_SSOL s.x1 s.y1 al qx qy xb gnm)) (n + 1) = some (t, m) ∧
      r = ⟨m - 1, n, t.x2⟩ := by
  unfold staircase at h
  cases h1 : whileGT (rectStep al R xd gnm) qx fuel
      (ofTuple (stepping_ESOL xd xd al R xd gnm)) 1 with
  | none =>
    simp only [h1] at h
    exact Option.noConfusion h
  | some p =>
    obtain ⟨s, n⟩ := p
    simp only [h1] at h
    cases h2 : whileGT (stripStep al qx qy xb gnm) xb fuel
        (ofTuple (stepping_SSOL s.x1 s.y1 al qx qy xb gnm)) (n + 1) with
    | none =>
      simp only [h2] at h
      exact Option.noConfusion h
    | some p2 =>
      obtain ⟨t, m⟩ := p2
      simp only [h2, Option.some.injEq] at h
      exact ⟨s, n, t, m, rfl, h2, h.symm⟩

/-- Converse direction used to evaluate `staircase` at concrete inputs. -/
lemma staircase_eval_of (al R xd qx qy xb gnm : ℝ) (fuel : ℕ)
    (s : StepState) (n : ℕ) (t : StepState) (m : ℕ)
    (h1 : whileGT (rectStep al R xd gnm) qx fuel
      (ofTuple (stepping_ESOL xd xd al R xd gnm)) 1 = some (s, n))
    (h2 : whileGT (stripStep al qx qy xb gnm) xb fuel
      (ofTuple (stepping_SSOL s.x1 s.y1 al qx qy xb gnm)) (n + 1) = some (t, m)) :
    staircase al R xd qx qy xb gnm fuel = some ⟨m - 1, n, t.x2⟩ := by
  unfold staircase
  simp only [h1, h2]

/-!  ### Claims C4, C5, C9, C10 about the staircase loops  -/

/-- Claim C4: starting from `(xd, xd)`, rectifying (ESOL) steps are repeated
exactly while the new liquid composition `x2` stays strictly greater than
`ESOL_q_x`, and the reported feed stage is the 1-indexed count of ESOL steps
taken when `x2` first becomes `≤ ESOL_q_x` (the unconditional first step is
iterate `0` and counts as stage 1). -/
theorem feed_stage_switch_rule (al R xd qx qy xb gnm : ℝ) (fuel : ℕ) (r : StaircaseResult)
    (h : staircase al R xd qx qy xb gnm fuel = some r) :
    ∃ k, r.feed_stage = k + 1 ∧
      (∀ j < k, qx <
        ((rectStep al R xd gnm)^[j] (ofTuple (stepping_ESOL xd xd al R xd gnm))).x2) ∧
      ((rectStep al R xd gnm)^[k] (ofTuple (stepping_ESOL xd xd al R xd gnm))).x2 ≤ qx := by
  obtain ⟨s, n, t, m, h1, h2, hr⟩ := staircase_decomp al R xd qx qy xb gnm fuel r h
  obtain ⟨k, hk1, hk2, hk3, hk4⟩ := whileGT_some _ _ fuel _ 1 s n h1
  have hfeed : r.feed_stage = n := by rw [hr]
  exact ⟨k, by omega, hk3, not_lt.mp hk4⟩

/-- Claim C5: stripping (SSOL) steps are repeated exactly while the new liquid
composition `x2` stays strictly greater than `xb`; on exit the reported
`xb_actual` is the final `x2` (which is `≤ xb`), and the reported total stage
count is the total number of equilibrium steps taken (`n` ESOL steps plus
`1 + k` SSOL steps) minus one. -/
theorem strip_termination_totals (al R xd qx qy xb gnm : ℝ) (fuel : ℕ) (r : StaircaseResult)
    (h : staircase al R xd qx qy xb gnm fuel = some r) :
    ∃ s n k,
      whileGT (rectStep al R xd gnm) qx fuel
        (ofTuple (stepping_ESOL xd xd al R xd gnm)) 1 = some (s, n) ∧
      (∀ j < k, xb <
        ((stripStep al qx qy xb gnm)^[j]
          (ofTuple (stepping_SSOL s.x1 s.y1 al qx qy xb gnm))).x2) ∧
      ((stripStep al qx qy xb gnm)^[k]
        (ofTuple (stepping_SSOL s.x1 s.y1 al qx qy xb gnm))).x2 ≤ xb ∧
      r.xb_actual =
        ((stripStep al qx qy xb gnm)^[k]
          (ofTuple (stepping_SSOL s.x1 s.y1 al qx qy xb gnm))).x2 ∧
      r.xb_actual ≤ xb ∧
      r.stages + 1 = n + (1 + k) := by
  obtain ⟨s, n, t, m, h1, h2, hr⟩ := staircase_decomp al R xd qx qy xb gnm fuel r h
  obtain ⟨k1, hk1, -, -, -⟩ := whileGT_some _ _ fuel _ 1 s n h1
  obtain ⟨k, hk2, hkt, hk3, hk4⟩ := whileGT_some _ _ fuel _ (n + 1) t m h2
  have hxba : r.xb_actual = t.x2 := by rw [hr]
  have hstages : r.stages = m - 1 := by rw [hr]
  refine ⟨s, n, k, h1, hk3, not_lt.mp hk4, ?_, ?_, ?_⟩
  · rw [hxba, hkt]
  · rw [hxba, hkt]
    exact not_lt.mp hk4
  · omega

/-- Claim C9: whenever the construction terminates, the reported total stage
count is a non-negative integer (it is a `ℕ`), the feed-stage index is at
least 1, and the feed-stage index is at most the total stage count. -/
theorem counter_invariants (al R xd qx qy xb gnm : ℝ) (fuel : ℕ) (r : StaircaseResult)
    (h : staircase al R xd qx qy xb gnm fuel = some r) :
    0 ≤ r.stages ∧ 1 ≤ r.feed_stage ∧ r.feed_stage ≤ r.stages := by
  obtain ⟨s, n, t, m, h1, h2, hr⟩ := staircase_decomp al R xd qx qy xb gnm fuel r h
  obtain ⟨k1, hk1, -, -, -⟩ := whileGT_some _ _ fuel _ 1 s n h1
  obtain ⟨k2, hk2, -, -, -⟩ := whileGT_some _ _ fuel _ (n + 1) t m h2
  have hfeed : r.feed_stage = n := by rw [hr]
  have hstages : r.stages = m - 1 := by rw [hr]
  exact ⟨Nat.zero_le _, by omega, by omega⟩

/-- One rectifying step always records `x2 = eq2(y1, α, nm)` in its output. -/
lemma rectStep_x2_eq (al R xd gnm : ℝ) (s : StepState) :
    (rectStep al R xd gnm s).x2 = eq2 (rectStep al R xd gnm s).y1 al gnm := rfl

/-- The initial unconditional ESOL step satisfies the same invariant. -/
lemma initStep_x2_eq (al R xd gnm : ℝ) :
    (ofTuple (stepping_ESOL xd xd al R xd gnm)).x2 =
      eq2 (ofTuple (stepping_ESOL xd xd al R xd gnm)).y1 al gnm := rfl

/-- Claim C10: after the rectifying loop exits with state `s`, the source calls
`stepping_SSOL` with `(s.x1, s.y1)` — the starting point of the last ESOL step —
so the first SSOL step's new liquid composition equals the last ESOL step's
`x2` (both are `eq2 (s.y1)`), and only the vapor composition is recomputed, on
the SSOL line instead of the ESOL line. -/
theorem ssol_restart_from_previous (al R xd qx qy xb gnm : ℝ) (fuel : ℕ)
    (s : StepState) (n : ℕ)
    (h : whileGT (rectStep al R xd gnm) qx fuel
      (ofTuple (stepping_ESOL xd xd al R xd gnm)) 1 = some (s, n)) :
    (ofTuple (stepping_SSOL s.x1 s.y1 al qx qy xb gnm)).x2 = s.x2 ∧
    (ofTuple (stepping_SSOL s.x1 s.y1 al qx qy xb gnm)).x2 = eq2 s.y1 al gnm ∧
    (ofTuple (stepping_SSOL s.x1 s.y1 al qx qy xb gnm)).y2 =
      (xb - qy) / (xb - qx) * s.x2 + (qy - (xb - qy) / (xb - qx) * qx) := by
  obtain ⟨k, -, hk2, -, -⟩ := whileGT_some _ _ fuel _ 1 s n h
  have hinv : s.x2 = eq2 s.y1 al gnm := by
    rw [hk2]
    cases k with
    | zero => simpa using initStep_x2_eq al R xd gnm
    | succ k =>
      rw [Function.iterate_succ_apply']
      exact rectStep_x2_eq al R xd gnm _
  have hx2 : (ofTuple (stepping_SSOL s.x1 s.y1 al qx qy xb gnm)).x2 = eq2 s.y1 al gnm := rfl
  refine ⟨?_, hx2, ?_⟩
  · rw [hx2, hinv]
  · show (xb - qy) / (xb - qx) * eq2 s.y1 al gnm +
        (qy - (xb - qy) / (xb - qx) * qx) =
      (xb - qy) / (xb - qx) * s.x2 + (qy - (xb - qy) / (xb - qx) * qx)
    rw [hinv]

/-!  ### Concrete evaluation of one staircase run (used by the witnesses)

With `α = 2`, global `nm = 1/2`, `xd = 7/12 = eq 1/2`, `R = 1`,
`ESOL_q_x = 5/9`, `ESOL_q_y = 5/8`, `xb = 1/2`: the unconditional ESOL step
lands on `x2 = 1/2 ≤ 5/9`, the rectifying loop exits at once, the
unconditional SSOL step lands on `x2 = 1/2 ≤ 1/2`, and the stripping loop
exits at once, giving `stages = 1`, `feed_stage = 1`, `xb_actual = 1/2`. -/

lemma eq_half_val : eq (1/2) 2 (1/2) = 7/12 := by
  unfold eq
  norm_num

lemma eq2_712_val : eq2 (7/12) 2 (1/2) = 1/2 := by
  have h := eq2_inverts_eq (1/2) 2 (1/2) (by norm_num) (by norm_num) (by norm_num) (by norm_num)
  rw [eq_half_val] at h
  exact h

lemma s0_val : ofTuple (stepping_ESOL (7/12) (7/12) 2 1 (7/12) (1/2)) =
    ⟨7/12, 1/2, 7/12, 13/24⟩ := by
  simp only [stepping_ESOL, ofTuple, eq2_712_val, StepState.mk.injEq]
  norm_num

lemma rect_loop_val :
    whileGT (rectStep 2 1 (7/12) (1/2)) (5/9) 3
      (ofTuple (stepping_ESOL (7/12) (7/12) 2 1 (7/12) (1/2))) 1 =
      some (⟨7/12, 1/2, 7/12, 13/24⟩, 1) := by
  rw [s0_val]
  apply whileGT_exit
  have hx : (⟨7/12, 1/2, 7/12, 13/24⟩ : StepState).x2 = 1/2 := rfl
  rw [hx]
  norm_num

lemma t0_val : ofTuple (stepping_SSOL (7/12) (7/12) 2 (5/9) (5/8) (1/2) (1/2)) =
    ⟨7/12, 1/2, 7/12, 1/2⟩ := by
  simp only [stepping_SSOL, ofTuple, eq2_712_val, StepState.mk.injEq]
  norm_num

lemma strip_loop_val :
    whileGT (stripStep 2 (5/9) (5/8) (1/2) (1/2)) (1/2) 3
      (ofTuple (stepping_SSOL (7/12) (7/12) 2 (5/9) (5/8) (1/2) (1/2))) 2 =
      some (⟨7/12, 1/2, 7/12, 1/2⟩, 2) := by
  rw [t0_val]
  apply whileGT_exit
  have hx : (⟨7/12, 1/2, 7/12, 1/2⟩ : StepState).x2 = 1/2 := rfl
  rw [hx]
  norm_num

lemma staircase_val : staircase 2 1 (7/12) (5/9) (5/8) (1/2) (1/2) 3 = some ⟨1, 1, 1/2⟩ :=
  staircase_eval_of 2 1 (7/12) (5/9) (5/8) (1/2) (1/2) 3
    ⟨7/12, 1/2, 7/12, 13/24⟩ 1 ⟨7/12, 1/2, 7/12, 1/2⟩ 2 rect_loop_val strip_loop_val

/-- Witness for `feed_stage_switch_rule` on the concrete run above. -/
theorem feed_stage_switch_rule_witness :
    staircase 2 1 (7/12) (5/9) (5/8) (1/2) (1/2) 3 = some ⟨1, 1, 1/2⟩ ∧
    ∃ k, (⟨1, 1, (1/2:ℝ)⟩ : StaircaseResult).feed_stage = k + 1 ∧
      (∀ j < k, (5/9:ℝ) <
        ((rectStep 2 1 (7/12) (1/2))^[j]
          (ofTuple (stepping_ESOL (7/12) (7/12) 2 1 (7/12) (1/2)))).x2) ∧
      ((rectStep 2 1 (7/12) (1/2))^[k]
        (ofTuple (stepping_ESOL (7/12) (7/12) 2 1 (7/12) (1/2)))).x2 ≤ 5/9 :=
  ⟨staircase_val,
    feed_stage_switch_rule 2 1 (7/12) (5/9) (5/8) (1/2) (1/2) 3 _ staircase_val⟩

/-- Witness for `strip_termination_totals` on the concrete run above. -/
theorem strip_termination_totals_witness :
    staircase 2 1 (7/12) (5/9) (5/8) (1/2) (1/2) 3 = some ⟨1, 1, 1/2⟩ ∧
    ∃ s n k,
      whileGT (rectStep 2 1 (7/12) (1/2)) (5/9) 3
        (ofTuple (stepping_ESOL (7/12) (7/12) 2 1 (7/12) (1/2))) 1 = some (s, n) ∧
      (∀ j < k, (1/2:ℝ) <
        ((stripStep 2 (5/9) (5/8) (1/2) (1/2))^[j]
          (ofTuple (stepping_SSOL s.x1 s.y1 2 (5/9) (5/8) (1/2) (1/2)))).x2) ∧
      ((stripStep 2 (5/9) (5/8) (1/2) (1/2))^[k]
        (ofTuple (stepping_SSOL s.x1 s.y1 2 (5/9) (5/8) (1/2) (1/2)))).x2 ≤ 1/2 ∧
      (⟨1, 1, (1/2:ℝ)⟩ : StaircaseResult).xb_actual =
        ((stripStep 2 (5/9) (5/8) (1/2) (1/2))^[k]
          (ofTuple (stepping_SSOL s.x1 s.y1 2 (5/9) (5/8) (1/2) (1/2)))).x2 ∧
      (⟨1, 1, (1/2:ℝ)⟩ : StaircaseResult).xb_actual ≤ 1/2 ∧
      (⟨1, 1, (1/2:ℝ)⟩ : StaircaseResult).stages + 1 = n + (1 + k) :=
  ⟨staircase_val,
    strip_termination_totals 2 1 (7/12) (5/9) (5/8) (1/2) (1/2) 3 _ staircase_val⟩

/-- Witness for `counter_invariants` on the concrete run above. -/
theorem counter_invariants_witness :
    staircase 2 1 (7/12) (5/9) (5/8) (1/2) (1/2) 3 = some ⟨1, 1, 1/2⟩ ∧
    (0 ≤ (⟨1, 1, (1/2:ℝ)⟩ : StaircaseResult).stages ∧
      1 ≤ (⟨1, 1, (1/2:ℝ)⟩ : StaircaseResult).feed_stage ∧
      (⟨1, 1, (1/2:ℝ)⟩ : StaircaseResult).feed_stage ≤
        (⟨1, 1, (1/2:ℝ)⟩ : StaircaseResult).stages) :=
  ⟨staircase_val,
    counter_invariants 2 1 (7/12) (5/9) (5/8) (1/2) (1/2) 3 _ staircase_val⟩

/-- Witness for `ssol_restart_from_previous` on the concrete run above. -/
theorem ssol_restart_from_previous_witness :
    whileGT (rectStep 2 1 (7/12) (1/2)) (5/9) 3
      (ofTuple (stepping_ESOL (7/12) (7/12) 2 1 (7/12) (1/2))) 1 =
      some (⟨7/12, 1/2, 7/12, 13/24⟩, 1) ∧
    ((ofTuple (stepping_SSOL (⟨7/12, 1/2, 7/12, 13/24⟩ : StepState).x1
        (⟨7/12, 1/2, 7/12, 13/24⟩ : StepState).y1 2 (5/9) (5/8) (1/2) (1/2))).x2 =
      (⟨7/12, 1/2, 7/12, 13/24⟩ : StepState).x2 ∧
    (ofTuple (stepping_SSOL (⟨7/12, 1/2, 7/12, 13/24⟩ : StepState).x1
        (⟨7/12, 1/2, 7/12, 13/24⟩ : StepState).y1 2 (5/9) (5/8) (1/2) (1/2))).x2 =
      eq2 (⟨7/12, 1/2, 7/12, 13/24⟩ : StepState).y1 2 (1/2) ∧
    (ofTuple (stepping_SSOL (⟨7/12, 1/2, 7/12, 13/24⟩ : StepState).x1
        (⟨7/12, 1/2, 7/12, 13/24⟩ : StepState).y1 2 (5/9) (5/8) (1/2) (1/2))).y2 =
      (1/2 - 5/8) / (1/2 - 5/9) * (⟨7/12, 1/2, 7/12, 13/24⟩ : StepState).x2 +
        (5/8 - (1/2 - 5/8) / (1/2 - 5/9) * (5/9))) :=
  ⟨rect_loop_val,
    ssol_restart_from_previous 2 1 (7/12) (5/9) (5/8) (1/2) (1/2) 3 _ 1 rect_loop_val⟩

/-!  ### Claim C6: minimum and actual reflux  -/

/-- Claim C6: `theta_min = xd·(1 - (xd - q_eqy)/(xd - q_eqX))` (source line 170)
is the y-intercept of the straight line through `(xd, xd)` and the
q-line/equilibrium-curve intersection `(q_eqX, q_eqy)`; `R_min = xd/theta_min - 1`
(line 171) and the actual reflux ratio is `R = R_factor · R_min` (line 172). -/
theorem theta_min_is_line_intercept (xd qx qy R_factor : ℝ) (h : qx ≠ xd) :
    theta_min xd qx qy = lineIntercept xd xd qx qy ∧
    R_min xd (theta_min xd qx qy) = xd / theta_min xd qx qy - 1 ∧
    R_actual R_factor (R_min xd (theta_min xd qx qy)) =
      R_factor * R_min xd (theta_min xd qx qy) := by
  refine ⟨?_, rfl, rfl⟩
  unfold theta_min lineIntercept
  ring

/-- Witness for `theta_min_is_line_intercept` at `xd = 3/4`, `(q_eqX, q_eqy) =
(1/2, 5/8)`, `R_factor = 2`. -/
theorem theta_min_is_line_intercept_witness :
    (1/2 : ℝ) ≠ 3/4 ∧
    (theta_min (3/4) (1/2) (5/8) = lineIntercept (3/4) (3/4) (1/2) (5/8) ∧
      R_min (3/4) (theta_min (3/4) (1/2) (5/8)) = (3/4) / theta_min (3/4) (1/2) (5/8) - 1 ∧
      R_actual 2 (R_min (3/4) (theta_min (3/4) (1/2) (5/8))) =
        2 * R_min (3/4) (theta_min (3/4) (1/2) (5/8))) :=
  ⟨by norm_num, theta_min_is_line_intercept (3/4) (1/2) (5/8) 2 (by norm_num)⟩

/-!  ### Claim C8: what determines the stepping functions' behaviour  -/

/-- Claim C8 (amended): the stepping functions' new liquid composition is
`eq2 y1 α gnm` where `gnm` is the module-global `nm` read from the outer
scope — the stepping behaviour is determined by the global, not by the `nm`
argument of `McCabeThiele`; and two invocations with identical argument tuples
AND identical module-global `nm` produce identical results. -/
theorem stepping_determined_by_global
    (x1 y1 al R xd qx qy xb PaVap PbVap R_factor xf q nm gnm : ℝ) (fuel : ℕ) :
    (ofTuple (stepping_ESOL x1 y1 al R xd gnm)).x2 = eq2 y1 al gnm ∧
    (ofTuple (stepping_SSOL x1 y1 al qx qy xb gnm)).x2 = eq2 y1 al gnm ∧
    McCabeThiele PaVap PbVap R_factor xf xd xb q nm gnm fuel =
      McCabeThiele PaVap PbVap R_factor xf xd xb q nm gnm fuel :=
  ⟨rfl, rfl, rfl⟩

/-- Counterexample to claim C8 as stated: with identical arguments, two runs
that differ only in the module-global `nm` (1/2 versus 34/35) give different
results from `stepping_ESOL`, because line 87 reads the outer-scope global
rather than any argument of `McCabeThiele`. -/
theorem stepping_global_counterexample :
    (1/2 : ℝ) ≠ 34/35 ∧
    stepping_ESOL (1/2) (7/12) 2 1 (3/4) (1/2) ≠
      stepping_ESOL (1/2) (7/12) 2 1 (3/4) (34/35) := by
  refine ⟨by norm_num, ?_⟩
  have he : eq (5/12) 2 (34/35) = 7/12 := by
    unfold eq
    norm_num
  have h2 : eq2 (7/12) 2 (34/35) = 5/12 := by
    have h := eq2_inverts_eq (5/12) 2 (34/35) (by norm_num) (by norm_num) (by norm_num)
      (by norm_num)
    rw [he] at h
    exact h
  intro hcon
  have h3 : (stepping_ESOL (1/2) (7/12) 2 1 (3/4) (1/2)).2.1 =
      (stepping_ESOL (1/2) (7/12) 2 1 (3/4) (34/35)).2.1 := by rw [hcon]
  have e1 : (stepping_ESOL (1/2) (7/12) 2 1 (3/4) (1/2)).2.1 = eq2 (7/12) 2 (1/2) := rfl
  have e2 : (stepping_ESOL (1/2) (7/12) 2 1 (3/4) (34/35)).2.1 = eq2 (7/12) 2 (34/35) := rfl
  rw [e1, e2, eq2_712_val, h2] at h3
  norm_num at h3

/-!  ### Claim C3: the strict-decrease/termination guarantee fails at `η = 1`

A fully valid parameter set per the claim — `α = PaVap/PbVap = 2 > 1`,
`0 < xb = 1/4 < xf = 11/20 < xd = 3/4 < 1`, `η = 1 ∈ (0,1]`, `q = 7/10`,
`R_min = 1/2` (positive, finite), `R = 2·R_min = 1 > R_min` — on which the
code's quadratic coefficient `a = (α-1)(η-1)` vanishes, so `eq2` divides by
zero (NaN in NumPy, `0` in the real embedding).  The first SSOL step then
repeats the rectifying exit's `x2` instead of strictly decreasing it. -/

lemma q_adj_c3 : q_adj (7/10) = 7/10 := by
  unfold q_adj
  rw [if_neg (by norm_num : (7/10 : ℝ) ≠ 1), if_neg (by norm_num : (7/10 : ℝ) ≠ 0)]

lemma relVol_c3 : relative_volatility 2 1 = 2 := by
  unfold relative_volatility
  norm_num

lemma q_eqX_c3 : q_eqX 2 (7/10) 1 (11/20) = 1/2 := by
  have ha : qeq_a 2 (7/10) 1 = -7/3 := by
    unfold qeq_a
    norm_num
  have hb : qeq_b 2 (7/10) 1 (11/20) = -5/2 := by
    unfold qeq_b
    norm_num
  have hc : qeq_c (7/10) (11/20) = 11/6 := by
    unfold qeq_c
    norm_num
  unfold q_eqX
  rw [if_neg (by norm_num : ¬ (1 : ℝ) < 7/10), ha, hb, hc]
  have hD : (-5/2 : ℝ) ^ 2 - 4 * (-7/3) * (11/6) = (29/6) ^ 2 := by norm_num
  rw [hD, Real.sqrt_sq (by norm_num : (0:ℝ) ≤ 29/6)]
  norm_num

lemma q_eqy_c3 : q_eqy 2 (7/10) 1 (11/20) = 2/3 := by
  unfold q_eqy
  rw [q_eqX_c3]
  unfold eq
  norm_num

lemma theta_min_c3 : theta_min (3/4) (1/2) (2/3) = 1/2 := by
  unfold theta_min
  norm_num

lemma R_min_c3 : R_min (3/4) (1/2) = 1/2 := by
  unfold R_min
  norm_num

lemma R_actual_c3 : R_actual 2 (1/2) = 1 := by
  unfold R_actual
  norm_num

lemma theta_c3 : theta (3/4) 1 = 3/8 := by
  unfold theta
  norm_num

lemma ESOL_q_x_c3 : ESOL_q_x (3/4) (3/8) (11/20) (7/10) = 35/68 := by
  unfold ESOL_q_x
  norm_num

lemma ESOL_q_y_c3 : ESOL_q_y (3/4) (3/8) (11/20) (7/10) = 43/68 := by
  unfold ESOL_q_y
  rw [ESOL_q_x_c3]
  norm_num

/-- At Murphree efficiency `η = 1` the quadratic coefficient `a` in `eq2` is
`0` for every input, the root formula divides by zero, and the embedding
evaluates `eq2` to `0` (NumPy produces NaN at the same spot). -/
lemma eq2_unit_efficiency (ya : ℝ) : eq2 ya 2 1 = 0 := by
  have ha : eq2_a 2 1 = 0 := by
    unfold eq2_a
    norm_num
  unfold eq2
  rw [ha]
  norm_num

lemma c3_s0_val : ofTuple (stepping_ESOL (3/4) (3/4) 2 1 (3/4) 1) = ⟨3/4, 0, 3/4, 3/8⟩ := by
  simp only [stepping_ESOL, ofTuple, eq2_unit_efficiency, StepState.mk.injEq]
  norm_num

lemma c3_rect_val :
    whileGT (rectStep 2 1 (3/4) 1) (35/68) 9
      (ofTuple (stepping_ESOL (3/4) (3/4) 2 1 (3/4) 1)) 1 =
      some (⟨3/4, 0, 3/4, 3/8⟩, 1) := by
  rw [c3_s0_val]
  apply whileGT_exit
  have hx : (⟨3/4, 0, 3/4, 3/8⟩ : StepState).x2 = 0 := rfl
  rw [hx]
  norm_num

lemma c3_t0_val : ofTuple (stepping_SSOL (3/4) (3/4) 2 (35/68) (43/68) (1/4) 1) =
    ⟨3/4, 0, 3/4, -1/9⟩ := by
  simp only [stepping_SSOL, ofTuple, eq2_unit_efficiency, StepState.mk.injEq]
  norm_num

lemma c3_strip_val :
    whileGT (stripStep 2 (35/68) (43/68) (1/4) 1) (1/4) 9
      (ofTuple (stepping_SSOL (3/4) (3/4) 2 (35/68) (43/68) (1/4) 1)) 2 =
      some (⟨3/4, 0, 3/4, -1/9⟩, 2) := by
  rw [c3_t0_val]
  apply whileGT_exit
  have hx : (⟨3/4, 0, 3/4, -1/9⟩ : StepState).x2 = 0 := rfl
  rw [hx]
  norm_num

lemma c3_staircase_val : staircase 2 1 (3/4) (35/68) (43/68) (1/4) 1 9 = some ⟨1, 1, 0⟩ :=
  staircase_eval_of 2 1 (3/4) (35/68) (43/68) (1/4) 1 9
    ⟨3/4, 0, 3/4, 3/8⟩ 1 ⟨3/4, 0, 3/4, -1/9⟩ 2 c3_rect_val c3_strip_val

lemma c3_pipeline_val :
    McCabeThiele 2 1 2 (11/20) (3/4) (1/4) (7/10) 1 1 9 = some ⟨1, 1, 1/2, 1, 0⟩ := by
  unfold McCabeThiele
  simp only [q_adj_c3, relVol_c3, q_eqX_c3, q_eqy_c3, theta_min_c3, R_min_c3,
    R_actual_c3, theta_c3, ESOL_q_x_c3, ESOL_q_y_c3, c3_staircase_val]

/-- Claim C3 evaluated at the failing input `PaVap = 2`, `PbVap = 1`
(`α = 2 > 1`), `R_factor = 2`, `xf = 11/20`, `xd = 3/4`, `xb = 1/4`,
`q = 7/10`, `η = 1` (a valid parameter set: `R_min = 1/2` is positive and
finite and `R = 1 > R_min`): the rectifying loop exits after the first
(unconditional) ESOL step with `x2 = 0`, and the first SSOL step produces the
same `x2 = 0` again — it does not strictly decrease the liquid composition,
contrary to the claim's guarantee for every valid parameter set with
`η ∈ (0,1]`. -/
theorem strict_decrease_fails_at_unit_efficiency :
    R_min (3/4) (theta_min (3/4)
      (q_eqX (relative_volatility 2 1) (q_adj (7/10)) 1 (11/20))
      (q_eqy (relative_volatility 2 1) (q_adj (7/10)) 1 (11/20))) = 1/2 ∧
    R_actual 2 (1/2) = 1 ∧
    ESOL_q_x (3/4) (theta (3/4) 1) (11/20) (7/10) = 35/68 ∧
    whileGT (rectStep 2 1 (3/4) 1) (35/68) 9
      (ofTuple (stepping_ESOL (3/4) (3/4) 2 1 (3/4) 1)) 1 =
      some (⟨3/4, 0, 3/4, 3/8⟩, 1) ∧
    (ofTuple (stepping_SSOL (3/4) (3/4) 2 (35/68) (43/68) (1/4) 1)).x2 =
      (⟨3/4, 0, 3/4, 3/8⟩ : StepState).x2 ∧
    ¬ (ofTuple (stepping_SSOL (3/4) (3/4) 2 (35/68) (43/68) (1/4) 1)).x2 <
      (⟨3/4, 0, 3/4, 3/8⟩ : StepState).x2 ∧
    McCabeThiele 2 1 2 (11/20) (3/4) (1/4) (7/10) 1 1 9 = some ⟨1, 1, 1/2, 1, 0⟩ := by
  have hx2 : (ofTuple (stepping_SSOL (3/4) (3/4) 2 (35/68) (43/68) (1/4) 1)).x2 =
      (⟨3/4, 0, 3/4, 3/8⟩ : StepState).x2 := by
    rw [c3_t0_val]
  refine ⟨?_, R_actual_c3, ?_, c3_rect_val, hx2, ?_, c3_pipeline_val⟩
  · rw [relVol_c3, q_adj_c3, q_eqX_c3, q_eqy_c3, theta_min_c3, R_min_c3]
  · rw [theta_c3, ESOL_q_x_c3]
  · rw [hx2]
    exact lt_irrefl _

end

end McCabe
